import Mathlib

/-!
Verification development for the Shopify-Reviews-Scraper repository
(src/scraper.py and src/app.py).  The Python source is shallowly embedded:
calendar dates become a `PDate` structure compared lexicographically
(mirroring `datetime` comparison at midnight), strings are handled as
`List Char`, the BeautifulSoup document tree becomes the `HtmlNode`
inductive, and the paginated review fetching loop of `fetch_reviews`
becomes a structurally recursive function over a list of per-page fetch
results.  Exceptions are modelled with `Option`.
-/

/-- Calendar date as carried by `datetime` values in scraper.py (the time
component is always midnight for parsed review dates, so comparison is
lexicographic on year, month, day). -/
structure PDate where
  year : Nat
  month : Nat
  day : Nat
deriving DecidableEq, Repr

/-- Strict comparison of dates, mirroring Python `datetime.__lt__`
(lexicographic on the fields). -/
def PDate.ltB (a b : PDate) : Bool :=
  a.year < b.year ||
    (a.year = b.year && (a.month < b.month ||
      (a.month = b.month && a.day < b.day)))

/-- Non-strict comparison of dates, mirroring Python `datetime.__le__`. -/
def PDate.leB (a b : PDate) : Bool :=
  a.year < b.year ||
    (a.year = b.year && (a.month < b.month ||
      (a.month = b.month && a.day ≤ b.day)))

/-- The date window handed to `fetch_reviews`: `startDate` is the inclusive
upper ("fetch from") bound and `endDate` the inclusive lower ("fetch
until") bound, as in scraper.py lines 263-264. -/
structure DateWindow where
  startDate : PDate
  endDate : PDate
deriving DecidableEq, Repr

/-- Classification of a parsed review date by the window test at
scraper.py lines 211-229: `review_date > start_date` is too new,
`start_date >= review_date >= end_date` is retained, anything else takes
the "too old" break branch. -/
inductive DateClass where
  | tooNew
  | inWindow
  | tooOld
deriving DecidableEq, Repr

/-- The branch structure of scraper.py lines 211-229 on a parsed date. -/
def classifyReview (w : DateWindow) (d : PDate) : DateClass :=
  if PDate.ltB w.startDate d then DateClass.tooNew
  else if PDate.leB d w.startDate && PDate.leB w.endDate d then DateClass.inWindow
  else DateClass.tooOld

/-- Whitespace test used when modelling Python `str.strip` and the
whitespace classes of `strptime` patterns. -/
def isWsC (c : Char) : Bool :=
  c = ' ' || c = '\t' || c = '\n' || c = '\r'

/-- Decimal digit test (the `\d` class of `_strptime`). -/
def isDigitC (c : Char) : Bool :=
  '0' ≤ c && c ≤ '9'

/-- Numeric value of a digit character. -/
def digitVal (c : Char) : Nat := c.toNat - 48

/-- Digit character for a value below ten. -/
def digitChar (n : Nat) : Char := Char.ofNat (48 + n)

/-- Value of a digit string read left to right. -/
def digitsVal (ds : List Char) : Nat :=
  ds.foldl (fun a c => a * 10 + digitVal c) 0

/-- Split off the maximal leading whitespace run (the `\s+` step of the
compiled `strptime` pattern). -/
def takeWs : List Char → List Char × List Char
  | [] => ([], [])
  | c :: cs =>
    if isWsC c then
      let p := takeWs cs
      (c :: p.1, p.2)
    else ([], c :: cs)

/-- Split off the maximal leading digit run. -/
def takeDigits : List Char → List Char × List Char
  | [] => ([], [])
  | c :: cs =>
    if isDigitC c then
      let p := takeDigits cs
      (c :: p.1, p.2)
    else ([], c :: cs)

/-- Python `str.strip()` on a character list. -/
def pyStrip (cs : List Char) : List Char :=
  (((cs.dropWhile isWsC).reverse).dropWhile isWsC).reverse

/-- Locate the first occurrence of `pat` in `cs`, returning the characters
before it and the characters after it (Python substring search). -/
def firstOccSplit (pat : List Char) : List Char → Option (List Char × List Char)
  | [] => if pat = [] then some ([], []) else none
  | c :: cs =>
    if pat.isPrefixOf (c :: cs) then some ([], (c :: cs).drop pat.length)
    else
      match firstOccSplit pat cs with
      | some p => some (c :: p.1, p.2)
      | none => none

/-- Python `pat in s` substring containment. -/
def containsSub (pat cs : List Char) : Bool :=
  (firstOccSplit pat cs).isSome

/-- Python `s.split(pat)[1]`: the segment of `cs` between the first
occurrence of `pat` and the following occurrence (or the end). Returns the
whole string when `pat` does not occur (unused on that branch in the
model, which mirrors the guard in `parse_review_date`). -/
def splitSeg1 (pat cs : List Char) : List Char :=
  match firstOccSplit pat cs with
  | none => cs
  | some p =>
    match firstOccSplit pat p.2 with
    | none => p.2
    | some q => q.1

/-- Case-insensitive character comparison (Python `strptime` compiles its
pattern with `re.IGNORECASE`). -/
def lcEq (a b : Char) : Bool := a.toLower = b.toLower

/-- Strip a literal pattern prefix case-insensitively, returning the rest. -/
def stripPrefCI : List Char → List Char → Option (List Char)
  | [], cs => some cs
  | _ :: _, [] => none
  | p :: ps, c :: cs => if lcEq p c then stripPrefCI ps cs else none

/-- The twelve English month names matched by the `%B` directive. -/
def monthNamesC : List (List Char) :=
  [ ['J','a','n','u','a','r','y'],
    ['F','e','b','r','u','a','r','y'],
    ['M','a','r','c','h'],
    ['A','p','r','i','l'],
    ['M','a','y'],
    ['J','u','n','e'],
    ['J','u','l','y'],
    ['A','u','g','u','s','t'],
    ['S','e','p','t','e','m','b','e','r'],
    ['O','c','t','o','b','e','r'],
    ['N','o','v','e','m','b','e','r'],
    ['D','e','c','e','m','b','e','r'] ]

/-- Try each month name in turn against the head of the input (no month
name is a prefix of another, so the alternation order is immaterial). -/
def tryMonths : Nat → List (List Char) → List Char → Option (Nat × List Char)
  | _, [], _ => none
  | i, n :: ns, cs =>
    match stripPrefCI n cs with
    | some rest => some (i, rest)
    | none => tryMonths (i + 1) ns cs

/-- Match the leading full month name, yielding its 1-based number. -/
def parseMonthCI (cs : List Char) : Option (Nat × List Char) :=
  tryMonths 1 monthNamesC cs

/-- Length of a month as validated by the `datetime` constructor. -/
def daysInMonth (m y : Nat) : Nat :=
  if m = 2 then
    (if y % 4 = 0 && (y % 100 ≠ 0 || y % 400 = 0) then 29 else 28)
  else if m = 4 || m = 6 || m = 9 || m = 11 then 30 else 31

/-- The day-of-month pattern of the `%d` directive: one digit `1`-`9` or
two digits `01`-`31`. -/
def dayOk (ds : List Char) : Bool :=
  (ds.length = 1 && 1 ≤ digitsVal ds) ||
    (ds.length = 2 && 1 ≤ digitsVal ds && digitsVal ds ≤ 31)

/-- The remainder of the `"%B %d, %Y"` pattern after the month name:
mandatory whitespace, the day, a literal comma, mandatory whitespace, a
four-digit year consuming the rest of the string, then the
`datetime`-constructor range checks. -/
def parseTail (m : Nat) (cs : List Char) : Option PDate :=
  let w1 := takeWs cs
  if w1.1 = [] then none
  else
    let dd := takeDigits w1.2
    if dayOk dd.1 then
      match dd.2 with
      | ',' :: cs4 =>
        let w2 := takeWs cs4
        if w2.1 = [] then none
        else
          let yy := takeDigits w2.2
          if yy.1.length = 4 && yy.2 = [] then
            let y := digitsVal yy.1
            let d := digitsVal dd.1
            if 1 ≤ y && d ≤ daysInMonth m y then some ⟨y, m, d⟩ else none
          else none
      | _ => none
    else none

/-- `datetime.strptime(s, "%B %d, %Y")` returning `none` on `ValueError`. -/
def parseDateChars (cs : List Char) : Option PDate :=
  match parseMonthCI cs with
  | some p => parseTail p.1 p.2
  | none => none

/-- The characters of the marker word recognised at scraper.py line 85. -/
def editedChars : List Char := ['E','d','i','t','e','d']

/-- scraper.py `parse_review_date` (lines 73-92): when the string contains
"Edited", only `split("Edited")[1]` is kept; the kept text is stripped and
fed to `strptime("%B %d, %Y")`, with `ValueError` becoming `none`. -/
def parse_review_date (s : String) : Option PDate :=
  let cs := s.data
  let cs2 := if containsSub editedChars cs then
      pyStrip (splitSeg1 editedChars cs)
    else pyStrip cs
  parseDateChars cs2

/-- Month name of a valid month number (1-12). -/
def monthName (m : Nat) : List Char := monthNamesC.getD (m - 1) []

/-- Render a day of month without a leading zero. -/
def dayChars (n : Nat) : List Char :=
  if n < 10 then [digitChar n] else [digitChar (n / 10), digitChar (n % 10)]

/-- Render a year as four zero-padded digits. -/
def pad4 (y : Nat) : List Char :=
  [digitChar (y / 1000 % 10), digitChar (y / 100 % 10),
   digitChar (y / 10 % 10), digitChar (y % 10)]

/-- Render a calendar date in the feed's `"<Month name> <day>, <year>"`
shape, e.g. `"June 1, 2024"`. -/
def renderChars (d : PDate) : List Char :=
  monthName d.month ++ ' ' :: (dayChars d.day ++ ',' :: ' ' :: pad4 d.year)

/-- String-level rendering of a calendar date. -/
def renderDate (d : PDate) : String := String.mk (renderChars d)

/-- A node of the parsed document tree handed back by BeautifulSoup: an
element with a name, an attribute association list and children, or a text
node. The `class` attribute is stored as its raw string value. -/
inductive HtmlNode where
  | tag (name : String) (attrs : List (String × String)) (children : List HtmlNode)
  | text (s : String)

/-- Children of a node (`Tag.children` in BeautifulSoup). -/
def HtmlNode.childrenOf : HtmlNode → List HtmlNode
  | .tag _ _ cs => cs
  | .text _ => []

/-- First value bound to an attribute key, modelling `tag[key]` and
`key in tag.attrs`. -/
def HtmlNode.getAttr : HtmlNode → String → Option String
  | .text _, _ => none
  | .tag _ attrs _, k =>
    match attrs.find? (fun p => p.1 = k) with
    | some p => some p.2
    | none => none

/-- A tag node with the given element name. -/
def HtmlNode.isNamed : HtmlNode → String → Bool
  | .tag n _ _, m => n = m
  | .text _, _ => false

/-- Presence of an attribute key, modelling `attrs={key: True}` filters. -/
def HtmlNode.hasAttrKey (n : HtmlNode) (k : String) : Bool :=
  (n.getAttr k).isSome

mutual

/-- Structural equality used by BeautifulSoup's `Tag.__eq__`: same name,
same attributes and recursively equal contents. -/
def HtmlNode.beq : HtmlNode → HtmlNode → Bool
  | .text a, .text b => a = b
  | .tag n1 a1 c1, .tag n2 a2 c2 => n1 = n2 && a1 = a2 && beqForest c1 c2
  | _, _ => false

/-- Pointwise structural equality of child lists. -/
def beqForest : List HtmlNode → List HtmlNode → Bool
  | [], [] => true
  | a :: as1, b :: bs => HtmlNode.beq a b && beqForest as1 bs
  | _, _ => false

end

mutual

/-- All descendant text, concatenated in document order (`Tag.text`). -/
def HtmlNode.textOf : HtmlNode → List Char
  | .text s => s.data
  | .tag _ _ cs => textOfForest cs

/-- Concatenated text of a list of nodes. -/
def textOfForest : List HtmlNode → List Char
  | [] => []
  | n :: ns => n.textOf ++ textOfForest ns

end

mutual

/-- First descendant (in pre-order, the element itself excluded at the
top-level call) satisfying a predicate: BeautifulSoup `find`. -/
def findInForest (p : HtmlNode → Bool) : List HtmlNode → Option HtmlNode
  | [] => none
  | n :: ns =>
    if p n then some n
    else
      match findInNode p n with
      | some r => some r
      | none => findInForest p ns

/-- Search the descendants of one node. -/
def findInNode (p : HtmlNode → Bool) : HtmlNode → Option HtmlNode
  | .text _ => none
  | .tag _ _ cs => findInForest p cs

end

/-- `element.find(...)`: first matching descendant of `n`. -/
def findD (p : HtmlNode → Bool) (n : HtmlNode) : Option HtmlNode :=
  findInNode p n

mutual

/-- All matching descendants in document order: BeautifulSoup `find_all`. -/
def findAllForest (p : HtmlNode → Bool) : List HtmlNode → List HtmlNode
  | [] => []
  | n :: ns =>
    (if p n then [n] else []) ++ findAllNode p n ++ findAllForest p ns

/-- All matching descendants of one node. -/
def findAllNode (p : HtmlNode → Bool) : HtmlNode → List HtmlNode
  | .text _ => []
  | .tag _ _ cs => findAllForest p cs

end

/-- Python `str.split()`: split on whitespace runs, dropping empty pieces. -/
def splitWsGo : List Char → List Char → List (List Char)
  | [], acc => if acc = [] then [] else [acc.reverse]
  | c :: cs, acc =>
    if isWsC c then
      (if acc = [] then splitWsGo cs [] else acc.reverse :: splitWsGo cs [])
    else splitWsGo cs (c :: acc)

/-- Whitespace-separated words of a string. -/
def pySplitWs (cs : List Char) : List (List Char) := splitWsGo cs []

/-- Interpose single spaces between words. -/
def joinSp : List (List Char) → List Char
  | [] => []
  | [w] => w
  | w :: ws => w ++ ' ' :: joinSp ws

/-- BeautifulSoup `class_` matching: the tag's multi-valued class list
(its class string split on whitespace) either contains the pattern as one
class, or rejoined with single spaces equals the whole pattern. -/
def classMatches (n : HtmlNode) (pat : String) : Bool :=
  match n.getAttr "class" with
  | none => false
  | some v =>
    let classes := pySplitWs v.data
    classes.contains pat.data || joinSp classes = pat.data

/-- Python `s.strip()` at the `String` level. -/
def stripS (cs : List Char) : String := String.mk (pyStrip cs)

/-- Python `s.replace(pat, "")` (leftmost, non-overlapping), with fuel
bounded by the string length. -/
def removeAllGo (pat : List Char) : List Char → Nat → List Char
  | cs, 0 => cs
  | [], _ => []
  | c :: cs, fuel + 1 =>
    if pat.isPrefixOf (c :: cs) then removeAllGo pat ((c :: cs).drop pat.length) fuel
    else c :: removeAllGo pat cs fuel

/-- Remove every occurrence of a (non-empty) pattern. -/
def removeAll (pat cs : List Char) : List Char :=
  removeAllGo pat cs cs.length

/-- Python `s1 in s2` on strings. -/
def containsSubS (pat s : String) : Bool := containsSub pat.data s.data

/-- The record dictionary appended at scraper.py lines 216-224: the raw
date string is stored under `date`; no parsed value is kept. -/
structure ReviewRecord where
  app_name : String
  review : String
  reviewer : String
  date : String
  location : String
  duration : String
  rating : Option String
deriving DecidableEq, Repr

/-- Class string of the star-rating element (scraper.py line 63). -/
def ratingClass : String := "tw-flex tw-relative tw-space-x-0.5 tw-w-[88px] tw-h-md"

/-- Python `s.split(' ')[0]`: the text before the first space character
(the whole string when no space occurs). -/
def firstSpaceTok (l : String) : String :=
  String.mk (l.data.takeWhile (fun c => c ≠ ' '))

/-- scraper.py `extract_rating` (lines 52-71): find the rating div; when
it carries an `aria-label`, the result is `aria_label.split(' ')[0]` —
never an exception, since `str.split` with an explicit separator is never
empty, so the `IndexError` handler is dead code. -/
def extract_rating (review : HtmlNode) : Option String :=
  match findD (fun n => n.isNamed "div" && classMatches n ratingClass) review with
  | some d =>
    match d.getAttr "aria-label" with
    | some l => some (firstSpaceTok l)
    | none => none
  | none => none

/-- Class string of the reviewer-information block (scraper.py line 173). -/
def reviewerBlockClass : String :=
  "tw-order-2 lg:tw-order-1 lg:tw-row-span-2 tw-mt-md md:tw-mt-0 tw-space-y-1 md:tw-space-y-2 tw-text-fg-tertiary tw-text-body-xs"

/-- Class string of the reviewer-name element (scraper.py line 177). -/
def reviewerNameClass : String :=
  "tw-text-heading-xs tw-text-fg-primary tw-overflow-hidden tw-text-ellipsis tw-whitespace-nowrap"

/-- Class string of the date/rating container (scraper.py line 196). -/
def dateContainerClass : String := "tw-flex tw-items-center tw-justify-between tw-mb-md"

/-- Class string of the review-date element (scraper.py line 199). -/
def dateDivClass : String := "tw-text-body-xs tw-text-fg-tertiary"

/-- The location/duration loop of scraper.py lines 181-193: walk the
direct div children of the reviewer block, skipping any child structurally
equal to the name div; a child whose text contains "using the app" sets
the duration (with " using the app" removed); otherwise the first
non-empty text becomes the location. -/
def locDurGo (nameDiv : Option HtmlNode) :
    List HtmlNode → Bool → String → String → String × String
  | [], _, loc, dur => (loc, dur)
  | c :: rest, fl, loc, dur =>
    if (match nameDiv with
        | some nd => HtmlNode.beq c nd
        | none => false) then
      locDurGo nameDiv rest fl loc dur
    else
      let t := stripS c.textOf
      if containsSubS "using the app" t then
        locDurGo nameDiv rest fl loc (String.mk (removeAll " using the app".data t.data))
      else if !fl && t.length > 0 then
        locDurGo nameDiv rest true t dur
      else locDurGo nameDiv rest fl loc dur

/-- The field extraction of scraper.py lines 163-203 for one review div,
assembling the record appended at lines 216-224 (the parsed date is used
only for the window test, not stored). -/
def extractRecord (appName : String) (rd : HtmlNode) : ReviewRecord :=
  let reviewText :=
    match findD (fun n => n.isNamed "div" && n.hasAttrKey "data-truncate-content-copy") rd with
    | some tdiv =>
      match findD (fun n => n.isNamed "p") tdiv with
      | some p => stripS p.textOf
      | none => "No review text"
    | none => "No review text"
  let block := findD (fun n => n.isNamed "div" && classMatches n reviewerBlockClass) rd
  let nameDiv :=
    match block with
    | some b => findD (fun n => n.isNamed "div" && classMatches n reviewerNameClass) b
    | none => none
  let reviewerName :=
    match block with
    | some _ =>
      match nameDiv with
      | some nd => stripS nd.textOf
      | none => "No reviewer name"
    | none => "No reviewer name"
  let locDur :=
    match block with
    | some b =>
      locDurGo nameDiv
        (b.childrenOf.filter (fun c => c.isNamed "div")) false "N/A" "N/A"
    | none => ("N/A", "N/A")
  let rawDate :=
    match findD (fun n => n.isNamed "div" && classMatches n dateContainerClass) rd with
    | some c =>
      match findD (fun n => n.isNamed "div" && classMatches n dateDivClass) c with
      | some dd => stripS dd.textOf
      | none => "No review date"
    | none => "No review date"
  ⟨appName, reviewText, reviewerName, rawDate, locDur.1, locDur.2, extract_rating rd⟩

/-- Class string of a review block (scraper.py line 153). -/
def reviewDivClass : String := "lg:tw-grid lg:tw-grid-cols-4 lg:tw-gap-x-gutter--desktop"

/-- The `find_all` selection of review blocks at scraper.py lines 152-153. -/
def reviewDivPred (n : HtmlNode) : Bool :=
  n.isNamed "div" && n.hasAttrKey "data-merchant-review" && classMatches n reviewDivClass

/-- Review blocks of a fetched page. -/
def reviewDivsOf (doc : HtmlNode) : List HtmlNode :=
  if reviewDivPred doc then doc :: findAllNode reviewDivPred doc
  else findAllNode reviewDivPred doc

/-- Outcome of one page fetch as seen by the pager after the retry layer:
either a parsed document, or the exception branch of scraper.py lines
140-146 (network failure after retries, or any 4xx/5xx status raised by
`raise_for_status`). -/
inductive FetchResult where
  | success (doc : HtmlNode)
  | failure

/-- Result of the inner node scan (scraper.py lines 163-232): the
accumulated review list, the `has_recent_reviews_on_page` flag and the
final value of the `review_date` variable. -/
structure ScanResult where
  recs : List ReviewRecord
  hasRecent : Bool
  last : Option PDate
deriving DecidableEq, Repr

/-- The per-node loop of scraper.py lines 163-232: extract the record,
parse its date, then classify. An unparseable date is skipped; a too-new
date is skipped with the recent flag set; an in-window date appends the
record; a too-old date stops the scan of the page at once. -/
def scanNodes (w : DateWindow) (appName : String) :
    List HtmlNode → List ReviewRecord → Bool → Option PDate → ScanResult
  | [], recs, hr, last => ⟨recs, hr, last⟩
  | n :: rest, recs, hr, _ =>
    let r := extractRecord appName n
    match parse_review_date r.date with
    | none => scanNodes w appName rest recs hr none
    | some d =>
      match classifyReview w d with
      | DateClass.tooNew => scanNodes w appName rest recs true (some d)
      | DateClass.inWindow => scanNodes w appName rest (recs ++ [r]) true (some d)
      | DateClass.tooOld => ⟨recs, hr, some d⟩

/-- Why the pager loop of scraper.py lines 135-248 terminated, named after
the spec's state machine: `fetchFailed` for the break at line 146,
`noMoreReviews` for the breaks at lines 157-159 and 237-239,
`belowWindow` for the break at lines 243-244, and `inputExhausted` for
the model boundary where no further page is supplied. -/
inductive StopReason where
  | fetchFailed
  | noMoreReviews
  | belowWindow
  | inputExhausted
deriving DecidableEq, Repr

/-- Observable outcome of a pager run: the retained records, the reason
the loop stopped, and how many pages were fetched. -/
structure PagerResult where
  records : List ReviewRecord
  reason : StopReason
  pagesFetched : Nat
deriving DecidableEq, Repr

/-- The `while True` loop of scraper.py lines 135-248 over the supplied
per-page fetch results. Per page: a fetch failure stops with whatever was
collected; zero review blocks stop; otherwise the nodes are scanned, and
the loop stops when no recent review was seen on a page after page 1, or
when the review list is non-empty and the last evaluated date is older
than the end date; otherwise the next page is fetched. -/
def fetchReviewsLoop (w : DateWindow) (appName : String) :
    List FetchResult → Nat → List ReviewRecord → PagerResult
  | [], _, acc => ⟨acc, StopReason.inputExhausted, 0⟩
  | FetchResult.failure :: _, _, acc => ⟨acc, StopReason.fetchFailed, 1⟩
  | FetchResult.success doc :: rest, page, acc =>
    let nodes := reviewDivsOf doc
    if nodes.isEmpty then ⟨acc, StopReason.noMoreReviews, 1⟩
    else
      let s := scanNodes w appName nodes acc false none
      if !s.hasRecent && page > 1 then ⟨s.recs, StopReason.noMoreReviews, 1⟩
      else if !s.recs.isEmpty &&
          (match s.last with
           | some d => PDate.ltB d w.endDate
           | none => false) then ⟨s.recs, StopReason.belowWindow, 1⟩
      else
        let r := fetchReviewsLoop w appName rest (page + 1) s.recs
        ⟨r.records, r.reason, r.pagesFetched + 1⟩

/-- scraper.py `fetch_reviews` (lines 94-250) over a supplied page
sequence, starting at page 1 with an empty review list. -/
def fetch_reviews (w : DateWindow) (appName : String) (pages : List FetchResult) : PagerResult :=
  fetchReviewsLoop w appName pages 1 []

/-- The retry policy constructed at scraper.py lines 123-128. -/
structure RetryConfig where
  total : Nat
  backoffFactor : Nat
  statusForcelist : List Nat
  allowedMethods : List String
deriving Repr

/-- The concrete `Retry` configuration of scraper.py lines 123-128. -/
def scraperRetryConfig : RetryConfig :=
  ⟨5, 1, [429, 500, 502, 503, 504], ["HEAD", "GET", "OPTIONS"]⟩

/-- What one HTTP attempt produced: a network-level error or a status. -/
inductive AttemptOutcome where
  | netError
  | status (code : Nat)

/-- An outcome urllib3 retries on: any network-level failure, or a status
listed in the forcelist. -/
def isRetryable (cfg : RetryConfig) (o : AttemptOutcome) : Bool :=
  match o with
  | AttemptOutcome.netError => true
  | AttemptOutcome.status c => cfg.statusForcelist.contains c

/-- urllib3 `Retry.get_backoff_time` as configured here: zero before the
first retry, then `backoff_factor * 2 ^ (retries so far - 1)` capped at
120, for the retry after `prior` failed attempts. -/
def backoffTime (cfg : RetryConfig) (prior : Nat) : Nat :=
  if prior ≤ 1 then 0 else min 120 (cfg.backoffFactor * 2 ^ (prior - 1))

/-- Trace of one `session.get` call through the mounted retry adapter:
the final status (`none` when `MaxRetryError` is raised), the number of
HTTP attempts made, and the sleeps taken between attempts. -/
structure FetchTrace where
  finalStatus : Option Nat
  attempts : Nat
  sleeps : List Nat
deriving DecidableEq, Repr

/-- The urllib3 retry loop for the adapter mounted at scraper.py lines
129-132: attempt `i`, and on a retryable outcome consume one unit of the
remaining retry budget (sleeping per `backoffTime`) until the budget is
exhausted, which raises `MaxRetryError`. -/
def runRetriesGo (cfg : RetryConfig) (outcomes : Nat → AttemptOutcome) :
    Nat → Nat → FetchTrace
  | allowed, i =>
    let o := outcomes i
    if isRetryable cfg o then
      match allowed with
      | 0 => ⟨none, i + 1, []⟩
      | a + 1 =>
        let r := runRetriesGo cfg outcomes a (i + 1)
        ⟨r.finalStatus, r.attempts, backoffTime cfg (i + 1) :: r.sleeps⟩
    else
      match o with
      | AttemptOutcome.status c => ⟨some c, i + 1, []⟩
      | AttemptOutcome.netError => ⟨none, i + 1, []⟩

/-- One `session.get` with the retry budget of the configured policy. -/
def runRetries (cfg : RetryConfig) (outcomes : Nat → AttemptOutcome) : FetchTrace :=
  runRetriesGo cfg outcomes cfg.total 0

/-- An app entry produced by `fetch_shopify_apps`. -/
structure ItemRef where
  name : String
  url : String
deriving DecidableEq, Repr

/-- Class string of a developer-page app entry (scraper.py line 36). -/
def appDivClass : String := "tw-text-body-sm tw-font-link"

/-- The per-entry extraction of scraper.py lines 38-47: the first anchor
inside the entry yields the stripped name and the href, absolutised
against the host root; a missing `href` raises `KeyError`, modelled as
`none`. Entries without an anchor are skipped. -/
def appsOfDivs : List HtmlNode → Option (List ItemRef)
  | [] => some []
  | d :: ds =>
    match findD (fun n => n.isNamed "a") d with
    | some a =>
      match a.getAttr "href" with
      | some href =>
        let u := if href.startsWith "http" then href
          else "https://apps.shopify.com" ++ href
        match appsOfDivs ds with
        | some rest => some (⟨stripS a.textOf, u⟩ :: rest)
        | none => none
      | none => none
    | none => appsOfDivs ds

/-- scraper.py `fetch_shopify_apps` (lines 14-50): a failed page fetch
(network error or non-2xx status, `cp = none`) is caught and yields the
empty list; a fetched document is scanned for app entry divs. The outer
`Option` is the exception behaviour of the uncaught extraction. -/
def fetch_shopify_apps (cp : Option HtmlNode) : Option (List ItemRef) :=
  match cp with
  | none => some []
  | some doc =>
    appsOfDivs (findAllNode
      (fun n => n.isNamed "div" && classMatches n appDivClass) doc)

/-- Keep the characters before the first occurrence of `stop`. -/
def takeUntilChar (stop : Char) (cs : List Char) : List Char :=
  cs.takeWhile (fun c => c ≠ stop)

/-- Drop characters up to (excluding) the first `/`, keeping it: used to
skip the network location after a `scheme://`. An authority without a
path yields the empty path. -/
def fromFirstSlash (cs : List Char) : List Char :=
  cs.dropWhile (fun c => c ≠ '/')

/-- `urlparse(u).path` for the URL shapes this program handles: when the
string contains `://`, the authority after it is skipped up to the first
slash; the query (after `?`) and fragment (after `#`) are not part of the
path. -/
def urlPathChars (u : List Char) : List Char :=
  let rest :=
    match firstOccSplit [':', '/', '/'] u with
    | some p => fromFirstSlash p.2
    | none => u
  takeUntilChar '?' (takeUntilChar '#' rest)

/-- Split a character list on a separator character, keeping empties
(Python `s.split('/')`). -/
def splitOnChar (sep : Char) : List Char → List (List Char)
  | [] => [[]]
  | c :: cs =>
    let r := splitOnChar sep cs
    if c = sep then [] :: r
    else
      match r with
      | h :: t => (c :: h) :: t
      | [] => [[c]]

/-- The `path_segments` computation of scraper.py lines 287-297: the
non-empty `/`-separated segments of the parsed path. -/
def pathSegments (u : String) : List String :=
  ((splitOnChar '/' (urlPathChars u.data)).filter (fun s => s ≠ [])).map String.mk

/-- Python `s.endswith(suffix)`. -/
def strEndsWith (s suffix : String) : Bool :=
  suffix.data.isSuffixOf s.data

/-- How the run coordinator classifies the one input locator. -/
inductive UrlKind where
  | collection
  | singleItem (handle : String)
  | invalid
deriving DecidableEq, Repr

/-- The branch structure of scraper.py lines 276-317 (same in app.py
lines 37-81): a URL containing `/partners/` is a developer collection; a
URL whose string ends in `/reviews` is a single app whose handle is the
path segment before `reviews` (rejected when that handle cannot be
found); anything else is rejected. -/
def resolveLocator (u : String) : UrlKind :=
  if containsSubS "/partners/" u then UrlKind.collection
  else if strEndsWith u "/reviews" then
    let segs := pathSegments u
    if 2 ≤ segs.length && segs.getLastD "" = "reviews" then
      UrlKind.singleItem (segs.getD (segs.length - 2) "")
    else UrlKind.invalid
  else UrlKind.invalid

/-- Python `str.title()`: upper-case every alphabetic character that does
not follow an alphabetic character, lower-case the rest. -/
def pyTitleGo : Bool → List Char → List Char
  | _, [] => []
  | prev, c :: cs =>
    let c2 := if c.isAlpha then (if prev then c.toLower else c.toUpper) else c
    c2 :: pyTitleGo c.isAlpha cs

/-- The display name derived at scraper.py line 303:
`app_handle.replace('-', ' ').title()`. -/
def displayNameOf (handle : String) : String :=
  String.mk (pyTitleGo false (handle.data.map (fun c => if c = '-' then ' ' else c)))

/-- Outcome of one `main` run: rejection of the locator before any fetch,
an uncaught extraction exception, or a normal finish carrying the number
of enumerated items and the collected records. -/
inductive RunOutcome where
  | invalidUrl
  | crashed
  | ok (items : Nat) (records : List ReviewRecord)
deriving Repr

/-- scraper.py `main` (lines 267-328) over a supplied environment: the
collection landing page fetch outcome (`none` = failed fetch) and the
per-app page sequences keyed by the app URL. Mirrors the three branches
on the input locator. -/
def mainModel (u : String) (cp : Option HtmlNode)
    (pf : String → List FetchResult) (w : DateWindow) : RunOutcome :=
  if containsSubS "/partners/" u then
    match fetch_shopify_apps cp with
    | none => RunOutcome.crashed
    | some apps =>
      RunOutcome.ok apps.length
        (apps.flatMap fun a => (fetch_reviews w a.name (pf a.url)).records)
  else if strEndsWith u "/reviews" then
    let segs := pathSegments u
    if 2 ≤ segs.length && segs.getLastD "" = "reviews" then
      let handle := segs.getD (segs.length - 2) ""
      RunOutcome.ok 1
        (fetch_reviews w (displayNameOf handle)
          (pf ("https://apps.shopify.com/" ++ handle))).records
    else RunOutcome.invalidUrl
  else RunOutcome.invalidUrl

/-- A date/rating container carrying the given raw date text. -/
def mkDateContainer (dateStr : String) : HtmlNode :=
  HtmlNode.tag "div" [("class", dateContainerClass)]
    [HtmlNode.tag "div" [("class", dateDivClass)] [HtmlNode.text dateStr]]

/-- A minimal well-formed review block with the given raw date text. -/
def mkReviewDiv (dateStr : String) : HtmlNode :=
  HtmlNode.tag "div"
    [("data-merchant-review", "true"), ("class", reviewDivClass)]
    [mkDateContainer dateStr]

/-- A page document wrapping the given review blocks. -/
def mkPage (divs : List HtmlNode) : HtmlNode :=
  HtmlNode.tag "html" [] [HtmlNode.tag "body" [] divs]

example : parse_review_date "June 1, 2024" = some ⟨2024, 6, 1⟩ := by decide
example : parse_review_date "Edited June 1, 2024" = some ⟨2024, 6, 1⟩ := by decide
example : parse_review_date "Edited Edited June 1, 2024" = none := by decide
example : parse_review_date "February 30, 2024" = none := by decide
example : parse_review_date "February 29, 2024" = some ⟨2024, 2, 29⟩ := by decide
example : parse_review_date "February 29, 2023" = none := by decide
example : parse_review_date "  June 1, 2024  " = some ⟨2024, 6, 1⟩ := by decide
example : parse_review_date "June 1, 24" = none := by decide
example : parse_review_date "No review date" = none := by decide
example : renderDate ⟨2024, 6, 1⟩ = "June 1, 2024" := by decide

example : reviewDivsOf (mkPage [mkReviewDiv "June 1, 2024"]) =
    [mkReviewDiv "June 1, 2024"] := rfl

example : (extractRecord "A" (mkReviewDiv "June 1, 2024")).date = "June 1, 2024" := by
  decide

example : extractRecord "A" (HtmlNode.tag "div" [] []) =
    ⟨"A", "No review text", "No reviewer name", "No review date", "N/A", "N/A", none⟩ := by
  decide

example :
    fetch_reviews ⟨⟨2024, 12, 31⟩, ⟨2023, 6, 1⟩⟩ "A"
      [FetchResult.success (mkPage [mkReviewDiv "June 1, 2024"]),
       FetchResult.success (mkPage [mkReviewDiv "January 1, 2023"])] =
    ⟨[extractRecord "A" (mkReviewDiv "June 1, 2024")], StopReason.noMoreReviews, 2⟩ := by
  decide

example : resolveLocator "https://apps.shopify.com/partners/cedcommerce" =
    UrlKind.collection := by decide

example : resolveLocator "https://apps.shopify.com/checkout-blocks/reviews" =
    UrlKind.singleItem "checkout-blocks" := by decide

example : resolveLocator "https://apps.shopify.com/reviews" = UrlKind.invalid := by
  decide

example : resolveLocator "https://example.com/whatever" = UrlKind.invalid := by decide

example : displayNameOf "checkout-blocks" = "Checkout Blocks" := by decide

theorem ltB_iff (a b : PDate) : PDate.ltB a b = true ↔
    (a.year < b.year ∨ (a.year = b.year ∧
      (a.month < b.month ∨ (a.month = b.month ∧ a.day < b.day)))) := by
  simp [PDate.ltB]

theorem leB_iff (a b : PDate) : PDate.leB a b = true ↔
    (a.year < b.year ∨ (a.year = b.year ∧
      (a.month < b.month ∨ (a.month = b.month ∧ a.day ≤ b.day)))) := by
  simp [PDate.leB]

theorem not_leB_of_ltB (a b : PDate) (h : PDate.ltB a b = true) :
    PDate.leB b a = false := by
  cases hb : PDate.leB b a with
  | false => rfl
  | true => rw [ltB_iff] at h; rw [leB_iff] at hb; omega

theorem not_ltB_of_leB (a b : PDate) (h : PDate.leB a b = true) :
    PDate.ltB b a = false := by
  cases hb : PDate.ltB b a with
  | false => rfl
  | true => rw [leB_iff] at h; rw [ltB_iff] at hb; omega

theorem leB_of_not_ltB (a b : PDate) (h : PDate.ltB a b = false) :
    PDate.leB b a = true := by
  cases hb : PDate.leB b a with
  | true => rfl
  | false =>
    rw [Bool.eq_false_iff, ne_eq, ltB_iff] at h
    rw [Bool.eq_false_iff, ne_eq, leB_iff] at hb
    omega

theorem leB_trans (a b c : PDate) (h1 : PDate.leB a b = true)
    (h2 : PDate.leB b c = true) : PDate.leB a c = true := by
  cases hb : PDate.leB a c with
  | true => rfl
  | false =>
    rw [leB_iff] at h1 h2
    rw [Bool.eq_false_iff, ne_eq, leB_iff] at hb
    omega

theorem classify_inWindow_iff (w : DateWindow) (d : PDate) :
    classifyReview w d = DateClass.inWindow ↔
      (PDate.leB w.endDate d = true ∧ PDate.leB d w.startDate = true) := by
  unfold classifyReview
  by_cases h1 : PDate.ltB w.startDate d = true
  · rw [if_pos h1]
    have h3 := not_leB_of_ltB _ _ h1
    constructor
    · intro h; exact DateClass.noConfusion h
    · intro h; rw [h.2] at h3; exact Bool.noConfusion h3
  · rw [if_neg h1]
    by_cases h2 : (PDate.leB d w.startDate && PDate.leB w.endDate d) = true
    · rw [if_pos h2]
      rw [Bool.and_eq_true] at h2
      exact iff_of_true rfl ⟨h2.2, h2.1⟩
    · rw [if_neg h2]
      constructor
      · intro h; exact DateClass.noConfusion h
      · intro h
        exact absurd (by rw [Bool.and_eq_true]; exact ⟨h.2, h.1⟩) h2

theorem classify_tooNew_of (w : DateWindow) (d : PDate)
    (h : PDate.ltB w.startDate d = true) :
    classifyReview w d = DateClass.tooNew := by
  unfold classifyReview
  rw [if_pos h]

theorem classify_tooOld_of (w : DateWindow) (d : PDate)
    (h1 : PDate.ltB d w.endDate = true) (h2 : PDate.leB d w.startDate = true) :
    classifyReview w d = DateClass.tooOld := by
  unfold classifyReview
  rw [if_neg, if_neg]
  · rw [not_leB_of_ltB _ _ h1, Bool.and_false]
    exact Bool.false_ne_true
  · rw [not_ltB_of_leB _ _ h2]
    exact Bool.false_ne_true

/-- C7: for every fetched page whose document contains zero review blocks,
the pager stops at that page with the no-more-reviews reason, fetching no
further page, with the already collected records as output; the page
number is universally quantified, so this covers page 1, independently of
the `page > 1` guard of the later stop condition. -/
theorem c7_zero_nodes_stops (w : DateWindow) (a : String) (doc : HtmlNode)
    (rest : List FetchResult) (page : Nat) (acc : List ReviewRecord)
    (h : reviewDivsOf doc = []) :
    fetchReviewsLoop w a (FetchResult.success doc :: rest) page acc =
      ⟨acc, StopReason.noMoreReviews, 1⟩ := by
  unfold fetchReviewsLoop
  rw [h]
  rfl

/-- C7 witness: an empty page on page 1 stops the whole run with no
records and a single fetch. -/
theorem c7_zero_nodes_stops_witness :
    fetchReviewsLoop ⟨⟨2024, 12, 31⟩, ⟨2023, 6, 1⟩⟩ "A"
      [FetchResult.success (mkPage []),
       FetchResult.success (mkPage [mkReviewDiv "June 1, 2024"])] 1 [] =
      ⟨[], StopReason.noMoreReviews, 1⟩ :=
  c7_zero_nodes_stops ⟨⟨2024, 12, 31⟩, ⟨2023, 6, 1⟩⟩ "A" (mkPage [])
    [FetchResult.success (mkPage [mkReviewDiv "June 1, 2024"])] 1 [] rfl

/-- C9: a failed collection-page fetch makes `fetch_shopify_apps` return
the empty list instead of raising, and a run over that empty collection
finishes normally, reporting 0 items and 0 collected reviews. -/
theorem c9_enumerator_failure_empty_run (u : String)
    (pf : String → List FetchResult) (w : DateWindow)
    (hc : containsSubS "/partners/" u = true) :
    fetch_shopify_apps none = some [] ∧
    mainModel u none pf w = RunOutcome.ok 0 [] := by
  refine ⟨rfl, ?_⟩
  unfold mainModel
  rw [if_pos hc]
  rfl

/-- C9 witness at the example developer-page URL with an arbitrary page
environment. -/
theorem c9_enumerator_failure_empty_run_witness :
    fetch_shopify_apps none = some [] ∧
    mainModel "https://apps.shopify.com/partners/cedcommerce" none
      (fun _ => []) ⟨⟨2024, 12, 31⟩, ⟨2023, 6, 1⟩⟩ = RunOutcome.ok 0 [] :=
  c9_enumerator_failure_empty_run "https://apps.shopify.com/partners/cedcommerce"
    (fun _ => []) ⟨⟨2024, 12, 31⟩, ⟨2023, 6, 1⟩⟩ (by decide)

theorem scan_recs_inverted (w : DateWindow) (a : String)
    (hinv : PDate.ltB w.startDate w.endDate = true) :
    ∀ (ns : List HtmlNode) (recs : List ReviewRecord) (hr : Bool)
      (l0 : Option PDate), (scanNodes w a ns recs hr l0).recs = recs := by
  intro ns
  induction ns with
  | nil => intro recs hr l0; rfl
  | cons n rest ih =>
    intro recs hr l0
    cases hp : parse_review_date (extractRecord a n).date with
    | none =>
      simp only [scanNodes, hp]
      exact ih recs hr none
    | some d =>
      cases hc : classifyReview w d with
      | tooNew =>
        simp only [scanNodes, hp, hc]
        exact ih recs true (some d)
      | tooOld => simp only [scanNodes, hp, hc]
      | inWindow =>
        rcases (classify_inWindow_iff w d).mp hc with ⟨hed, hds⟩
        have hse := leB_trans _ _ _ hed hds
        rw [not_ltB_of_leB _ _ hse] at hinv
        exact Bool.noConfusion hinv

theorem loop_recs_inverted (w : DateWindow) (a : String)
    (hinv : PDate.ltB w.startDate w.endDate = true) :
    ∀ (pages : List FetchResult) (page : Nat) (acc : List ReviewRecord),
      (fetchReviewsLoop w a pages page acc).records = acc := by
  intro pages
  induction pages with
  | nil => intro page acc; rfl
  | cons f rest ih =>
    intro page acc
    cases f with
    | failure => rfl
    | success doc =>
      have hs := scan_recs_inverted w a hinv (reviewDivsOf doc) acc false none
      by_cases he : (reviewDivsOf doc).isEmpty = true
      · simp only [fetchReviewsLoop, he, if_true]
      · simp only [fetchReviewsLoop, he, if_false, Bool.false_eq_true, ite_false]
        by_cases h1 : (!(scanNodes w a (reviewDivsOf doc) acc false none).hasRecent
            && page > 1) = true
        · simp only [h1, if_true]
          exact hs
        · simp only [h1, Bool.false_eq_true, ite_false, if_false]
          by_cases h2 : (!(scanNodes w a (reviewDivsOf doc) acc false none).recs.isEmpty
              && (match (scanNodes w a (reviewDivsOf doc) acc false none).last with
                  | some d => PDate.ltB d w.endDate
                  | none => false)) = true
          · simp only [h2, if_true]
            exact hs
          · simp only [h2, Bool.false_eq_true, ite_false, if_false]
            rw [ih (page + 1) (scanNodes w a (reviewDivsOf doc) acc false none).recs]
            exact hs

/-- C10: with an inverted window (start strictly earlier than end) the
retain branch of the classifier is unreachable — every parseable date is
either too new or takes the too-old branch — and the record list returned
by `fetch_reviews` is empty for every page sequence. -/
theorem c10_inverted_window_empty (w : DateWindow) (a : String)
    (hinv : PDate.ltB w.startDate w.endDate = true) :
    (∀ d : PDate, classifyReview w d ≠ DateClass.inWindow) ∧
    ∀ pages : List FetchResult, (fetch_reviews w a pages).records = [] := by
  constructor
  · intro d hc
    rcases (classify_inWindow_iff w d).mp hc with ⟨hed, hds⟩
    have hse := leB_trans _ _ _ hed hds
    rw [not_ltB_of_leB _ _ hse] at hinv
    exact Bool.noConfusion hinv
  · intro pages
    exact loop_recs_inverted w a hinv pages 1 []

/-- C10 witness: a concrete inverted window over a page holding a review
dated between the two bounds yields no records, and that date is not
classified in-window. -/
theorem c10_inverted_window_empty_witness :
    classifyReview ⟨⟨2020, 1, 1⟩, ⟨2022, 1, 1⟩⟩ ⟨2021, 6, 1⟩ ≠ DateClass.inWindow ∧
    (fetch_reviews ⟨⟨2020, 1, 1⟩, ⟨2022, 1, 1⟩⟩ "A"
      [FetchResult.success (mkPage [mkReviewDiv "June 1, 2021"])]).records = [] :=
  ⟨(c10_inverted_window_empty ⟨⟨2020, 1, 1⟩, ⟨2022, 1, 1⟩⟩ "A" (by decide)).1 ⟨2021, 6, 1⟩,
   (c10_inverted_window_empty ⟨⟨2020, 1, 1⟩, ⟨2022, 1, 1⟩⟩ "A" (by decide)).2
     [FetchResult.success (mkPage [mkReviewDiv "June 1, 2021"])]⟩

theorem scan_step_none (w : DateWindow) (a : String) (n : HtmlNode)
    (rest : List HtmlNode) (recs : List ReviewRecord) (hr : Bool)
    (l0 : Option PDate)
    (hp : parse_review_date (extractRecord a n).date = none) :
    scanNodes w a (n :: rest) recs hr l0 = scanNodes w a rest recs hr none := by
  simp only [scanNodes, hp]

theorem scan_step_tooNew (w : DateWindow) (a : String) (n : HtmlNode)
    (rest : List HtmlNode) (recs : List ReviewRecord) (hr : Bool)
    (l0 : Option PDate) (d : PDate)
    (hp : parse_review_date (extractRecord a n).date = some d)
    (hc : classifyReview w d = DateClass.tooNew) :
    scanNodes w a (n :: rest) recs hr l0 = scanNodes w a rest recs true (some d) := by
  simp only [scanNodes, hp, hc]

theorem scan_step_inWindow (w : DateWindow) (a : String) (n : HtmlNode)
    (rest : List HtmlNode) (recs : List ReviewRecord) (hr : Bool)
    (l0 : Option PDate) (d : PDate)
    (hp : parse_review_date (extractRecord a n).date = some d)
    (hc : classifyReview w d = DateClass.inWindow) :
    scanNodes w a (n :: rest) recs hr l0 =
      scanNodes w a rest (recs ++ [extractRecord a n]) true (some d) := by
  simp only [scanNodes, hp, hc]

theorem scan_step_tooOld (w : DateWindow) (a : String) (n : HtmlNode)
    (rest : List HtmlNode) (recs : List ReviewRecord) (hr : Bool)
    (l0 : Option PDate) (d : PDate)
    (hp : parse_review_date (extractRecord a n).date = some d)
    (hc : classifyReview w d = DateClass.tooOld) :
    scanNodes w a (n :: rest) recs hr l0 = ⟨recs, hr, some d⟩ := by
  simp only [scanNodes, hp, hc]

/-- C1 counterexample: in the window with start 2020-01-01 and end
2022-01-01, the date 2021-06-01 is strictly older than the end date, yet
the code classifies it as too new (not too old), and the scan of a page
continues past such a node to the following node instead of stopping, as
witnessed by the scan state reflecting the second node. -/
theorem c1_counterexample :
    PDate.ltB ⟨2021, 6, 1⟩ (⟨2022, 1, 1⟩ : PDate) = true ∧
    classifyReview ⟨⟨2020, 1, 1⟩, ⟨2022, 1, 1⟩⟩ ⟨2021, 6, 1⟩ = DateClass.tooNew ∧
    DateClass.tooNew ≠ DateClass.tooOld ∧
    scanNodes ⟨⟨2020, 1, 1⟩, ⟨2022, 1, 1⟩⟩ "A"
      [mkReviewDiv "June 1, 2021", mkReviewDiv "May 1, 2019"] [] false none =
      ⟨[], true, some ⟨2019, 5, 1⟩⟩ := by
  refine ⟨by decide, by decide, by decide, ?_⟩
  decide

/-- C1 amended: a parsed review date is retained exactly when it lies in
the inclusive window `end <= d <= start`; a date strictly newer than the
start is skipped as too new and scanning continues; a date strictly older
than the end that is not also newer than the start (always the case when
the window is not inverted) takes the too-old branch and stops the scan of
the page at once. -/
theorem c1_amended_window_rule (w : DateWindow) (d : PDate) (a : String)
    (n : HtmlNode) (rest : List HtmlNode) (recs : List ReviewRecord)
    (hr : Bool) (l0 : Option PDate)
    (hp : parse_review_date (extractRecord a n).date = some d) :
    (classifyReview w d = DateClass.inWindow ↔
      (PDate.leB w.endDate d = true ∧ PDate.leB d w.startDate = true)) ∧
    (classifyReview w d = DateClass.inWindow →
      scanNodes w a (n :: rest) recs hr l0 =
        scanNodes w a rest (recs ++ [extractRecord a n]) true (some d)) ∧
    (PDate.ltB w.startDate d = true →
      classifyReview w d = DateClass.tooNew ∧
      scanNodes w a (n :: rest) recs hr l0 = scanNodes w a rest recs true (some d)) ∧
    (PDate.ltB d w.endDate = true → PDate.leB d w.startDate = true →
      classifyReview w d = DateClass.tooOld ∧
      scanNodes w a (n :: rest) recs hr l0 = ⟨recs, hr, some d⟩) := by
  refine ⟨classify_inWindow_iff w d, ?_, ?_, ?_⟩
  · intro hc
    exact scan_step_inWindow w a n rest recs hr l0 d hp hc
  · intro hlt
    have hc := classify_tooNew_of w d hlt
    exact ⟨hc, scan_step_tooNew w a n rest recs hr l0 d hp hc⟩
  · intro h1 h2
    have hc := classify_tooOld_of w d h1 h2
    exact ⟨hc, scan_step_tooOld w a n rest recs hr l0 d hp hc⟩

/-- C1 witness: in the window start 2024-12-31 / end 2023-06-01, the date
2024-06-01 is classified in-window and retained by a page scan. -/
theorem c1_amended_window_rule_witness :
    classifyReview ⟨⟨2024, 12, 31⟩, ⟨2023, 6, 1⟩⟩ ⟨2024, 6, 1⟩ = DateClass.inWindow ∧
    scanNodes ⟨⟨2024, 12, 31⟩, ⟨2023, 6, 1⟩⟩ "A" [mkReviewDiv "June 1, 2024"] [] false none =
      scanNodes ⟨⟨2024, 12, 31⟩, ⟨2023, 6, 1⟩⟩ "A" []
        ([] ++ [extractRecord "A" (mkReviewDiv "June 1, 2024")]) true (some ⟨2024, 6, 1⟩) :=
  ⟨by decide,
   (c1_amended_window_rule ⟨⟨2024, 12, 31⟩, ⟨2023, 6, 1⟩⟩ ⟨2024, 6, 1⟩ "A"
      (mkReviewDiv "June 1, 2024") [] [] false none (by decide)).2.1 (by decide)⟩

theorem scan_mem (w : DateWindow) (a : String) :
    ∀ (ns : List HtmlNode) (recs : List ReviewRecord) (hr : Bool)
      (l0 : Option PDate) (r : ReviewRecord),
      r ∈ (scanNodes w a ns recs hr l0).recs →
      r ∈ recs ∨ ∃ d : PDate, parse_review_date r.date = some d ∧
        PDate.leB w.endDate d = true ∧ PDate.leB d w.startDate = true := by
  intro ns
  induction ns with
  | nil => intro recs hr l0 r hm; exact Or.inl hm
  | cons n rest ih =>
    intro recs hr l0 r hm
    cases hp : parse_review_date (extractRecord a n).date with
    | none =>
      rw [scan_step_none w a n rest recs hr l0 hp] at hm
      exact ih recs hr none r hm
    | some d =>
      cases hc : classifyReview w d with
      | tooNew =>
        rw [scan_step_tooNew w a n rest recs hr l0 d hp hc] at hm
        exact ih recs true (some d) r hm
      | tooOld =>
        rw [scan_step_tooOld w a n rest recs hr l0 d hp hc] at hm
        exact Or.inl hm
      | inWindow =>
        rw [scan_step_inWindow w a n rest recs hr l0 d hp hc] at hm
        rcases ih _ true (some d) r hm with hin | hex
        · rcases List.mem_append.mp hin with hl | hr2
          · exact Or.inl hl
          · rcases List.mem_singleton.mp hr2 with rfl
            rcases (classify_inWindow_iff w d).mp hc with ⟨h1, h2⟩
            exact Or.inr ⟨d, hp, h1, h2⟩
        · exact Or.inr hex

/-- C2 counterexample: a review node whose raw date string does not parse
is not retained: the page scan leaves the review list empty and a full
pager run over that page returns no records, while the claim asserts the
record is still retained in the output. -/
theorem c2_counterexample :
    parse_review_date (extractRecord "A" (mkReviewDiv "Not a date")).date = none ∧
    (scanNodes ⟨⟨2024, 12, 31⟩, ⟨2023, 6, 1⟩⟩ "A"
      [mkReviewDiv "Not a date"] [] false none).recs = [] ∧
    (fetch_reviews ⟨⟨2024, 12, 31⟩, ⟨2023, 6, 1⟩⟩ "A"
      [FetchResult.success (mkPage [mkReviewDiv "Not a date"]),
       FetchResult.success (mkPage [])]).records = [] := by
  refine ⟨by decide, by decide, ?_⟩
  decide

/-- C2 amended: a review node whose raw date string fails to parse is
skipped — the scan continues with the next node and the record is not
added to the output — and any record present in a scan's output either was
already accumulated or carries a date that parses to a value inside the
inclusive window. -/
theorem c2_amended_unparseable_skipped (w : DateWindow) (a : String)
    (n : HtmlNode) (rest : List HtmlNode) (recs : List ReviewRecord)
    (hr : Bool) (l0 : Option PDate)
    (hp : parse_review_date (extractRecord a n).date = none) :
    scanNodes w a (n :: rest) recs hr l0 = scanNodes w a rest recs hr none ∧
    ∀ r : ReviewRecord, r ∈ (scanNodes w a (n :: rest) recs hr l0).recs →
      r ∈ recs ∨ ∃ d : PDate, parse_review_date r.date = some d ∧
        PDate.leB w.endDate d = true ∧ PDate.leB d w.startDate = true :=
  ⟨scan_step_none w a n rest recs hr l0 hp,
   fun r hm => scan_mem w a (n :: rest) recs hr l0 r hm⟩

/-- C2 witness: a page holding an unparseable-date node followed by an
in-window node retains exactly the in-window record. -/
theorem c2_amended_unparseable_skipped_witness :
    scanNodes ⟨⟨2024, 12, 31⟩, ⟨2023, 6, 1⟩⟩ "A"
      [mkReviewDiv "Not a date", mkReviewDiv "June 1, 2024"] [] false none =
      scanNodes ⟨⟨2024, 12, 31⟩, ⟨2023, 6, 1⟩⟩ "A"
        [mkReviewDiv "June 1, 2024"] [] false none ∧
    (scanNodes ⟨⟨2024, 12, 31⟩, ⟨2023, 6, 1⟩⟩ "A"
      [mkReviewDiv "Not a date", mkReviewDiv "June 1, 2024"] [] false none).recs =
      [extractRecord "A" (mkReviewDiv "June 1, 2024")] :=
  ⟨(c2_amended_unparseable_skipped ⟨⟨2024, 12, 31⟩, ⟨2023, 6, 1⟩⟩ "A"
      (mkReviewDiv "Not a date") [mkReviewDiv "June 1, 2024"] [] false none
      (by decide)).1,
   by decide⟩

/-- C3 counterexample: two concrete runs against the window start
2024-12-31 / end 2023-06-01. In the first, page 1 holds only a review
dated 2020-01-01 — strictly older than the end date — yet with no record
retained the loop goes on to fetch page 2 (two pages fetched), refuting
"never fetches page n+1". In the second, page 1 yields a record and page 2
holds the too-old review: the loop does stop after page 2 but through the
no-recent-reviews break, not the below-window one. -/
theorem c3_counterexample :
    fetch_reviews ⟨⟨2024, 12, 31⟩, ⟨2023, 6, 1⟩⟩ "A"
      [FetchResult.success (mkPage [mkReviewDiv "January 1, 2020"]),
       FetchResult.success (mkPage [])] =
      ⟨[], StopReason.noMoreReviews, 2⟩ ∧
    fetch_reviews ⟨⟨2024, 12, 31⟩, ⟨2023, 6, 1⟩⟩ "A"
      [FetchResult.success (mkPage [mkReviewDiv "June 1, 2024"]),
       FetchResult.success (mkPage [mkReviewDiv "January 1, 2020"])] =
      ⟨[extractRecord "A" (mkReviewDiv "June 1, 2024")], StopReason.noMoreReviews, 2⟩ ∧
    StopReason.noMoreReviews ≠ StopReason.belowWindow := by
  refine ⟨by decide, ?_, by decide⟩
  decide

/-- C3 amended: when the scan of a page ends with its last evaluated date
strictly older than the end of the window and at least one record has been
retained so far, the pager stops after that page — it never fetches the
next page — keeping exactly the records scanned so far; the stop is
reported as below-window unless the page showed no newer or in-window
activity after page 1, in which case it is reported as no-more-reviews. -/
theorem c3_amended_early_stop (w : DateWindow) (a : String) (doc : HtmlNode)
    (rest : List FetchResult) (page : Nat) (acc : List ReviewRecord)
    (s : ScanResult) (d : PDate)
    (hs0 : scanNodes w a (reviewDivsOf doc) acc false none = s)
    (hne : (reviewDivsOf doc).isEmpty = false)
    (hlast : s.last = some d)
    (hold : PDate.ltB d w.endDate = true)
    (hrecs : s.recs.isEmpty = false) :
    fetchReviewsLoop w a (FetchResult.success doc :: rest) page acc =
      ⟨s.recs,
       if (!s.hasRecent && page > 1) = true then StopReason.noMoreReviews
       else StopReason.belowWindow,
       1⟩ := by
  by_cases h1 : (!s.hasRecent && page > 1) = true
  · simp only [fetchReviewsLoop, hne, Bool.false_eq_true, ite_false, hs0, h1,
      if_true]
  · have h2 : (!s.recs.isEmpty &&
        (match s.last with
         | some d => PDate.ltB d w.endDate
         | none => false)) = true := by
      rw [hrecs, hlast]
      simp [hold]
    simp only [fetchReviewsLoop, hne, Bool.false_eq_true, ite_false, hs0, h1,
      h2, if_true]

/-- C3 witness: a page holding an in-window review followed by a too-old
review stops the pager at that page with the below-window reason, keeping
the retained record, without fetching the page supplied after it. -/
theorem c3_amended_early_stop_witness :
    fetchReviewsLoop ⟨⟨2024, 12, 31⟩, ⟨2023, 6, 1⟩⟩ "A"
      [FetchResult.success
        (mkPage [mkReviewDiv "June 1, 2024", mkReviewDiv "January 1, 2020"]),
       FetchResult.success (mkPage [mkReviewDiv "June 2, 2024"])] 1 [] =
      ⟨[extractRecord "A" (mkReviewDiv "June 1, 2024")], StopReason.belowWindow, 1⟩ := by
  have h := c3_amended_early_stop ⟨⟨2024, 12, 31⟩, ⟨2023, 6, 1⟩⟩ "A"
    (mkPage [mkReviewDiv "June 1, 2024", mkReviewDiv "January 1, 2020"])
    [FetchResult.success (mkPage [mkReviewDiv "June 2, 2024"])] 1 []
    ⟨[extractRecord "A" (mkReviewDiv "June 1, 2024")], true, some ⟨2020, 1, 1⟩⟩
    ⟨2020, 1, 1⟩ (by decide) (by decide) (by decide) (by decide) (by decide)
  simpa using h

theorem runRetriesGo_attempts (cfg : RetryConfig) (outcomes : Nat → AttemptOutcome) :
    ∀ (allowed i : Nat), (runRetriesGo cfg outcomes allowed i).attempts ≤ i + 1 + allowed := by
  intro allowed
  induction allowed with
  | zero =>
    intro i
    unfold runRetriesGo
    by_cases h : isRetryable cfg (outcomes i) = true
    · simp only [h, if_true]; omega
    · simp only [h, Bool.false_eq_true, ite_false, if_false]
      cases outcomes i <;> simp
  | succ a ih =>
    intro i
    unfold runRetriesGo
    by_cases h : isRetryable cfg (outcomes i) = true
    · simp only [h, if_true]
      have := ih (i + 1)
      omega
    · simp only [h, Bool.false_eq_true, ite_false, if_false]
      cases outcomes i <;> simp

/-- C4 counterexample: with the configured policy (`total=5` retries), a
page answering HTTP 503 on every attempt is requested 6 times — not at
most 5 — before the terminal failure, and five consecutive 503s followed
by a 200 end in success on the sixth attempt rather than terminal failure;
the backoff sleeps are 0, 2, 4, 8, 16 time units, so the first backoff is
0, not 1. -/
theorem c4_counterexample :
    runRetries scraperRetryConfig (fun _ => AttemptOutcome.status 503) =
      ⟨none, 6, [0, 2, 4, 8, 16]⟩ ∧
    ¬(runRetries scraperRetryConfig (fun _ => AttemptOutcome.status 503)).attempts ≤ 5 ∧
    runRetries scraperRetryConfig
      (fun i => if i < 5 then AttemptOutcome.status 503 else AttemptOutcome.status 200) =
      ⟨some 200, 6, [0, 2, 4, 8, 16]⟩ ∧
    (runRetries scraperRetryConfig (fun _ => AttemptOutcome.status 503)).sleeps.headD 99 ≠ 1 := by
  refine ⟨by decide, by decide, by decide, by decide⟩

/-- C4 amended: the page fetcher makes at most 6 attempts in total (one
initial attempt plus the configured 5 retries), retries only on
network-level failures and the statuses 429, 500, 502, 503, 504 (a
non-retryable status ends the call on the first attempt), sleeps 0 before
the first retry and then 2, 4, 8, 16 time units (factor 1, doubling); a
page answering 503 on all attempts exhausts the budget after exactly 6
attempts, and the pager then stops for that item keeping the records
already collected from prior pages; the policy is restricted to idempotent
methods including GET. -/
theorem c4_amended_retry_policy :
    (∀ outcomes : Nat → AttemptOutcome,
      (runRetries scraperRetryConfig outcomes).attempts ≤ 6) ∧
    (∀ (outcomes : Nat → AttemptOutcome) (c : Nat),
      outcomes 0 = AttemptOutcome.status c →
      isRetryable scraperRetryConfig (outcomes 0) = false →
      runRetries scraperRetryConfig outcomes = ⟨some c, 1, []⟩) ∧
    runRetries scraperRetryConfig (fun _ => AttemptOutcome.status 503) =
      ⟨none, 6, [0, 2, 4, 8, 16]⟩ ∧
    (∀ (w : DateWindow) (a : String) (rest : List FetchResult) (page : Nat)
      (acc : List ReviewRecord),
      fetchReviewsLoop w a (FetchResult.failure :: rest) page acc =
        ⟨acc, StopReason.fetchFailed, 1⟩) ∧
    scraperRetryConfig.allowedMethods.contains "GET" = true := by
  refine ⟨?_, ?_, by decide, ?_, by decide⟩
  · intro outcomes
    exact runRetriesGo_attempts scraperRetryConfig outcomes 5 0
  · intro outcomes c h0 hr
    rw [h0] at hr
    unfold runRetries runRetriesGo
    simp only [h0, hr, Bool.false_eq_true, ite_false, if_false]
  · intro w a rest page acc
    rfl

/-- C4 witness: the amended policy evaluated concretely — a 404 on the
first attempt is not retried, and a pager whose second page fetch fails
keeps the record collected from the first page. -/
theorem c4_amended_retry_policy_witness :
    runRetries scraperRetryConfig (fun _ => AttemptOutcome.status 404) =
      ⟨some 404, 1, []⟩ ∧
    fetchReviewsLoop ⟨⟨2024, 12, 31⟩, ⟨2023, 6, 1⟩⟩ "A"
      [FetchResult.failure] 2 [extractRecord "A" (mkReviewDiv "June 1, 2024")] =
      ⟨[extractRecord "A" (mkReviewDiv "June 1, 2024")], StopReason.fetchFailed, 1⟩ :=
  ⟨c4_amended_retry_policy.2.1 (fun _ => AttemptOutcome.status 404) 404 rfl (by decide),
   c4_amended_retry_policy.2.2.2.1 ⟨⟨2024, 12, 31⟩, ⟨2023, 6, 1⟩⟩ "A" [] 2
     [extractRecord "A" (mkReviewDiv "June 1, 2024")]⟩

/-- C5 counterexample: a single-item reviews URL carrying query
parameters has a path ending in `/reviews`, yet the coordinator rejects
it (the string-level `endswith` test fails), while the claim says such a
locator is accepted as a single item. -/
theorem c5_counterexample :
    strEndsWith
      (String.mk (urlPathChars "https://apps.shopify.com/acme-app/reviews?sort_by=newest".data))
      "/reviews" = true ∧
    resolveLocator "https://apps.shopify.com/acme-app/reviews?sort_by=newest" =
      UrlKind.invalid ∧
    UrlKind.invalid ≠ UrlKind.singleItem "acme-app" := by
  refine ⟨by decide, by decide, by decide⟩

/-- C5 amended: a locator containing `/partners/` is treated as a
collection; a locator whose full string ends in `/reviews` is treated as a
single item when a handle segment precedes the suffix, and otherwise
rejected; every other locator — including a reviews-feed URL carrying
query parameters, which does not end in the literal suffix — is rejected
with a validation failure before any fetch, the run outcome being
independent of every fetchable resource. -/
theorem c5_amended_locator_shapes (u : String) (cp cp2 : Option HtmlNode)
    (pf pf2 : String → List FetchResult) (w w2 : DateWindow) :
    (containsSubS "/partners/" u = true → resolveLocator u = UrlKind.collection) ∧
    (containsSubS "/partners/" u = false → strEndsWith u "/reviews" = true →
      (∃ h : String, resolveLocator u = UrlKind.singleItem h) ∨
      (resolveLocator u = UrlKind.invalid ∧
        mainModel u cp pf w = RunOutcome.invalidUrl ∧
        mainModel u cp pf w = mainModel u cp2 pf2 w2)) ∧
    (containsSubS "/partners/" u = false → strEndsWith u "/reviews" = false →
      resolveLocator u = UrlKind.invalid ∧
      mainModel u cp pf w = RunOutcome.invalidUrl ∧
      mainModel u cp pf w = mainModel u cp2 pf2 w2) := by
  refine ⟨?_, ?_, ?_⟩
  · intro h1
    simp only [resolveLocator, h1, if_true]
  · intro h1 h2
    by_cases hseg : (2 ≤ (pathSegments u).length &&
        (pathSegments u).getLastD "" = "reviews") = true
    · exact Or.inl ⟨(pathSegments u).getD ((pathSegments u).length - 2) "",
        by simp only [resolveLocator, h1, Bool.false_eq_true, ite_false, if_false,
          h2, if_true, hseg]⟩
    · refine Or.inr ⟨?_, ?_, ?_⟩
      · simp only [resolveLocator, h1, Bool.false_eq_true, ite_false, if_false,
          h2, if_true, hseg]
      · simp only [mainModel, h1, Bool.false_eq_true, ite_false, if_false,
          h2, if_true, hseg]
      · simp only [mainModel, h1, Bool.false_eq_true, ite_false, if_false,
          h2, if_true, hseg]
  · intro h1 h2
    refine ⟨?_, ?_, ?_⟩
    · simp only [resolveLocator, h1, h2, Bool.false_eq_true, ite_false, if_false]
    · simp only [mainModel, h1, h2, Bool.false_eq_true, ite_false, if_false]
    · simp only [mainModel, h1, h2, Bool.false_eq_true, ite_false, if_false]

/-- C5 witness: the example developer URL is a collection, and a
non-matching URL is rejected identically under two different
environments. -/
theorem c5_amended_locator_shapes_witness :
    resolveLocator "https://apps.shopify.com/partners/cedcommerce" =
      UrlKind.collection ∧
    (resolveLocator "https://example.com/page" = UrlKind.invalid ∧
      mainModel "https://example.com/page" none (fun _ => [])
        ⟨⟨2024, 12, 31⟩, ⟨2023, 6, 1⟩⟩ = RunOutcome.invalidUrl ∧
      mainModel "https://example.com/page" none (fun _ => [])
        ⟨⟨2024, 12, 31⟩, ⟨2023, 6, 1⟩⟩ =
        mainModel "https://example.com/page" (some (mkPage []))
          (fun _ => [FetchResult.failure]) ⟨⟨2020, 1, 1⟩, ⟨2019, 1, 1⟩⟩) :=
  ⟨(c5_amended_locator_shapes "https://apps.shopify.com/partners/cedcommerce"
      none none (fun _ => []) (fun _ => []) ⟨⟨2024, 12, 31⟩, ⟨2023, 6, 1⟩⟩
      ⟨⟨2024, 12, 31⟩, ⟨2023, 6, 1⟩⟩).1 (by decide),
   (c5_amended_locator_shapes "https://example.com/page"
      none (some (mkPage [])) (fun _ => []) (fun _ => [FetchResult.failure])
      ⟨⟨2024, 12, 31⟩, ⟨2023, 6, 1⟩⟩ ⟨⟨2020, 1, 1⟩, ⟨2019, 1, 1⟩⟩).2.2
      (by decide) (by decide)⟩

/-- C8 counterexample: a review node whose rating div carries an empty
accessible label yields `some ""` — not `none` as the claim states for a
malformed label — and a label whose first token is delimited by a tab
yields the tab-containing prefix up to the first space character, not the
first whitespace-delimited token. -/
theorem c8_counterexample :
    extract_rating
      (HtmlNode.tag "div" []
        [HtmlNode.tag "div" [("class", ratingClass), ("aria-label", "")] []]) =
      some "" ∧
    (some "" : Option String) ≠ none ∧
    extract_rating
      (HtmlNode.tag "div" []
        [HtmlNode.tag "div" [("class", ratingClass), ("aria-label", "5\tout of 5 stars")] []]) =
      some "5\tout" ∧
    ("5\tout" : String) ≠ "5" := by
  refine ⟨by decide, by decide, by decide, by decide⟩

/-- C8 amended: the field extractor is total — a node missing the review
text container yields "No review text", one missing the reviewer block
yields "No reviewer name" with "N/A" location and tenure, one missing the
date container yields "No review date" — and the rating is `none` exactly
when the rating div or its accessible label attribute is absent, while a
present label (however malformed) yields the text before its first space
character. -/
theorem c8_amended_extractor_sentinels (a : String) (n : HtmlNode) :
    (findD (fun m => m.isNamed "div" && m.hasAttrKey "data-truncate-content-copy") n = none →
      (extractRecord a n).review = "No review text") ∧
    (findD (fun m => m.isNamed "div" && classMatches m reviewerBlockClass) n = none →
      (extractRecord a n).reviewer = "No reviewer name" ∧
      (extractRecord a n).location = "N/A" ∧
      (extractRecord a n).duration = "N/A") ∧
    (findD (fun m => m.isNamed "div" && classMatches m dateContainerClass) n = none →
      (extractRecord a n).date = "No review date") ∧
    (findD (fun m => m.isNamed "div" && classMatches m ratingClass) n = none →
      (extractRecord a n).rating = none) ∧
    (∀ rdiv : HtmlNode,
      findD (fun m => m.isNamed "div" && classMatches m ratingClass) n = some rdiv →
      rdiv.getAttr "aria-label" = none → (extractRecord a n).rating = none) ∧
    (∀ (rdiv : HtmlNode) (l : String),
      findD (fun m => m.isNamed "div" && classMatches m ratingClass) n = some rdiv →
      rdiv.getAttr "aria-label" = some l →
      (extractRecord a n).rating = some (firstSpaceTok l)) := by
  refine ⟨?_, ?_, ?_, ?_, ?_, ?_⟩
  · intro h
    simp only [extractRecord, h]
  · intro h
    refine ⟨?_, ?_, ?_⟩ <;> simp only [extractRecord, h]
  · intro h
    simp only [extractRecord, h]
  · intro h
    simp only [extractRecord, extract_rating, h]
  · intro rdiv h1 h2
    simp only [extractRecord, extract_rating, h1, h2]
  · intro rdiv l h1 h2
    simp only [extractRecord, extract_rating, h1, h2]

/-- C8 witness: a bare div extracts to the all-sentinel record. -/
theorem c8_amended_extractor_sentinels_witness :
    (extractRecord "A" (HtmlNode.tag "div" [] [])).review = "No review text" ∧
    (extractRecord "A" (HtmlNode.tag "div" [] [])).reviewer = "No reviewer name" ∧
    (extractRecord "A" (HtmlNode.tag "div" [] [])).location = "N/A" ∧
    (extractRecord "A" (HtmlNode.tag "div" [] [])).duration = "N/A" ∧
    (extractRecord "A" (HtmlNode.tag "div" [] [])).date = "No review date" ∧
    (extractRecord "A" (HtmlNode.tag "div" [] [])).rating = none :=
  ⟨(c8_amended_extractor_sentinels "A" (HtmlNode.tag "div" [] [])).1 rfl,
   ((c8_amended_extractor_sentinels "A" (HtmlNode.tag "div" [] [])).2.1 rfl).1,
   ((c8_amended_extractor_sentinels "A" (HtmlNode.tag "div" [] [])).2.1 rfl).2.1,
   ((c8_amended_extractor_sentinels "A" (HtmlNode.tag "div" [] [])).2.1 rfl).2.2,
   (c8_amended_extractor_sentinels "A" (HtmlNode.tag "div" [] [])).2.2.1 rfl,
   (c8_amended_extractor_sentinels "A" (HtmlNode.tag "div" [] [])).2.2.2.1 rfl⟩

theorem stripPrefCI_append (p cs : List Char) : stripPrefCI p (p ++ cs) = some cs := by
  induction p with
  | nil => rfl
  | cons c ps ih => simp [stripPrefCI, lcEq, ih]

theorem parseMonth_render (m : Nat) (h1 : 1 ≤ m) (h2 : m ≤ 12) (rest : List Char) :
    parseMonthCI (monthName m ++ rest) = some (m, rest) := by
  interval_cases m <;>
    simp +decide [parseMonthCI, tryMonths, monthNamesC, monthName, stripPrefCI, lcEq]

theorem digitChar_isDigit (k : Nat) (h : k < 10) : isDigitC (digitChar k) = true := by
  interval_cases k <;> decide

theorem digitChar_not_ws (k : Nat) (h : k < 10) : isWsC (digitChar k) = false := by
  interval_cases k <;> decide

theorem digitVal_digitChar (k : Nat) (h : k < 10) : digitVal (digitChar k) = k := by
  interval_cases k <;> decide

theorem digitChar_ne_E (k : Nat) (h : k < 10) : digitChar k ≠ 'E' := by
  interval_cases k <;> decide

theorem takeWs_not_ws (cs : List Char)
    (h : ∀ c, cs.head? = some c → isWsC c = false) : takeWs cs = ([], cs) := by
  cases cs with
  | nil => rfl
  | cons c t => simp [takeWs, h c rfl]

theorem takeWs_space (cs : List Char)
    (h : ∀ c, cs.head? = some c → isWsC c = false) :
    takeWs (' ' :: cs) = ([' '], cs) := by
  simp +decide [takeWs, takeWs_not_ws cs h]

theorem takeDigits_all (ds : List Char) (h : ∀ c ∈ ds, isDigitC c = true) :
    takeDigits ds = (ds, []) := by
  induction ds with
  | nil => rfl
  | cons c t ih =>
    simp [takeDigits, h c (by simp), ih (fun x hx => h x (by simp [hx]))]

theorem takeDigits_append (ds rest : List Char)
    (hd : ∀ c ∈ ds, isDigitC c = true)
    (hr : ∀ c, rest.head? = some c → isDigitC c = false) :
    takeDigits (ds ++ rest) = (ds, rest) := by
  induction ds with
  | nil =>
    cases rest with
    | nil => rfl
    | cons c t => simp [takeDigits, hr c rfl]
  | cons c t ih =>
    simp [takeDigits, hd c (by simp), ih (fun x hx => hd x (by simp [hx]))]

theorem pad4_digits (y : Nat) : ∀ c ∈ pad4 y, isDigitC c = true := by
  intro c hc
  simp [pad4] at hc
  rcases hc with rfl | rfl | rfl | rfl
  all_goals exact digitChar_isDigit _ (Nat.mod_lt _ (by omega))

theorem pad4_ne_E (y : Nat) : ∀ c ∈ pad4 y, c ≠ 'E' := by
  intro c hc
  simp [pad4] at hc
  rcases hc with rfl | rfl | rfl | rfl
  all_goals exact digitChar_ne_E _ (Nat.mod_lt _ (by omega))

theorem pad4_val (y : Nat) (h : y ≤ 9999) : digitsVal (pad4 y) = y := by
  have h1 := digitVal_digitChar (y / 1000 % 10) (Nat.mod_lt _ (by omega))
  have h2 := digitVal_digitChar (y / 100 % 10) (Nat.mod_lt _ (by omega))
  have h3 := digitVal_digitChar (y / 10 % 10) (Nat.mod_lt _ (by omega))
  have h4 := digitVal_digitChar (y % 10) (Nat.mod_lt _ (by omega))
  simp [pad4, digitsVal, h1, h2, h3, h4]
  omega

theorem dayChars_facts (n : Nat) (h1 : 1 ≤ n) (h2 : n ≤ 31) :
    (∀ c ∈ dayChars n, isDigitC c = true) ∧ digitsVal (dayChars n) = n ∧
      dayOk (dayChars n) = true ∧
      (∀ c, (dayChars n).head? = some c → isWsC c = false) ∧
      (∀ c ∈ dayChars n, c ≠ 'E') := by
  interval_cases n <;>
    exact ⟨by decide, by decide, by decide, by decide, by decide⟩

theorem monthName_parts (m : Nat) (h1 : 1 ≤ m) (h2 : m ≤ 12) :
    (∃ c0 t, monthName m = c0 :: t ∧ isWsC c0 = false) ∧
    (∀ c ∈ monthName m, c ≠ 'E') := by
  interval_cases m <;> exact ⟨⟨_, _, rfl, by decide⟩, by decide⟩

theorem daysInMonth_le_31 (m y : Nat) : daysInMonth m y ≤ 31 := by
  unfold daysInMonth
  split_ifs <;> omega

theorem parseTail_render (m y day : Nat) (h1 : 1 ≤ day) (h2 : day ≤ 31)
    (h3 : 1 ≤ y) (h4 : y ≤ 9999) (h5 : day ≤ daysInMonth m y) :
    parseTail m (' ' :: (dayChars day ++ ',' :: ' ' :: pad4 y)) =
      some ⟨y, m, day⟩ := by
  obtain ⟨hdig, hval, hok, hhead, -⟩ := dayChars_facts day h1 h2
  have hw1 : takeWs (' ' :: (dayChars day ++ ',' :: ' ' :: pad4 y)) =
      ([' '], dayChars day ++ ',' :: ' ' :: pad4 y) := by
    apply takeWs_space
    intro c hc
    cases hdc : dayChars day with
    | nil => rw [hdc] at hc; simp at hc; rw [← hc]; decide
    | cons d0 t =>
      rw [hdc] at hc
      simp at hc
      exact hc ▸ hhead d0 (by rw [hdc]; rfl)
  have hd1 : takeDigits (dayChars day ++ ',' :: ' ' :: pad4 y) =
      (dayChars day, ',' :: ' ' :: pad4 y) := by
    apply takeDigits_append _ _ hdig
    intro c hc
    simp at hc
    rw [← hc]
    decide
  have hw2 : takeWs (' ' :: pad4 y) = ([' '], pad4 y) := by
    apply takeWs_space
    intro c hc
    have hc2 : c = digitChar (y / 1000 % 10) := by
      simp [pad4] at hc
      exact hc.symm
    rw [hc2]
    exact digitChar_not_ws _ (Nat.mod_lt _ (by omega))
  have hd2 : takeDigits (pad4 y) = (pad4 y, []) := takeDigits_all _ (pad4_digits y)
  have hlen : (pad4 y).length = 4 := by simp [pad4]
  have hcond : (1 ≤ digitsVal (pad4 y) && digitsVal (dayChars day) ≤ daysInMonth m y)
      = true := by
    rw [pad4_val y h4, hval, Bool.and_eq_true, decide_eq_true_eq, decide_eq_true_eq]
    exact ⟨h3, h5⟩
  unfold parseTail
  simp only [hw1, hd1, hw2, hd2, hok, hlen, hval, if_true, List.cons_ne_self]
  simp only [pad4_val y h4, hcond, if_true]
  simp [pad4_val y h4, hval]
  exact ⟨h3, h5⟩

theorem isPrefixOf_append_self (p rest : List Char) :
    List.isPrefixOf p (p ++ rest) = true := by
  induction p with
  | nil => simp [List.isPrefixOf]
  | cons c cs ih => simp [List.isPrefixOf, ih]

theorem firstOcc_edited_none (cs : List Char) (h : ∀ c ∈ cs, c ≠ 'E') :
    firstOccSplit editedChars cs = none := by
  induction cs with
  | nil => decide
  | cons c t ih =>
    have hcE : c ≠ 'E' := h c (by simp)
    have hp : List.isPrefixOf editedChars (c :: t) = false := by
      simp [editedChars, List.isPrefixOf]
      intro hE
      exact absurd hE.symm hcE
    simp [firstOccSplit, hp, ih (fun x hx => h x (by simp [hx]))]

theorem containsSub_edited_false (cs : List Char) (h : ∀ c ∈ cs, c ≠ 'E') :
    containsSub editedChars cs = false := by
  simp [containsSub, firstOcc_edited_none cs h]

theorem pyStrip_no_ws (cs : List Char)
    (h1 : ∀ c, cs.head? = some c → isWsC c = false)
    (h2 : ∀ c, cs.reverse.head? = some c → isWsC c = false) :
    pyStrip cs = cs := by
  unfold pyStrip
  have hd : cs.dropWhile isWsC = cs := by
    cases cs with
    | nil => rfl
    | cons c t =>
      rw [List.dropWhile_cons, h1 c rfl]
      simp
  rw [hd]
  cases hr : cs.reverse with
  | nil =>
    rw [List.reverse_eq_nil_iff] at hr
    rw [hr]
    rfl
  | cons c t =>
    rw [List.dropWhile_cons, h2 c (by rw [hr]; rfl)]
    simp only [Bool.false_eq_true, ite_false, if_false]
    rw [← hr, List.reverse_reverse]

theorem pyStrip_cons_ws (c : Char) (cs : List Char) (h : isWsC c = true) :
    pyStrip (c :: cs) = pyStrip cs := by
  unfold pyStrip
  rw [List.dropWhile_cons, h]
  simp

theorem c6_roundtrip_aux (d : PDate) (hm1 : 1 ≤ d.month) (hm2 : d.month ≤ 12)
    (hd1 : 1 ≤ d.day) (hd2 : d.day ≤ daysInMonth d.month d.year)
    (hy1 : 1 ≤ d.year) (hy2 : d.year ≤ 9999) :
    parse_review_date (renderDate d) = some d := by
  obtain ⟨⟨c0, t0, hmn, hc0⟩, hmE⟩ := monthName_parts d.month hm1 hm2
  have hday31 : d.day ≤ 31 := le_trans hd2 (daysInMonth_le_31 _ _)
  obtain ⟨-, -, -, -, hdE⟩ := dayChars_facts d.day hd1 hday31
  have hnoE : ∀ c ∈ renderChars d, c ≠ 'E' := by
    intro c hc
    unfold renderChars at hc
    rcases List.mem_append.mp hc with hA | hB
    · exact hmE c hA
    · rcases List.mem_cons.mp hB with rfl | hB2
      · decide
      · rcases List.mem_append.mp hB2 with hD | hC
        · exact hdE c hD
        · rcases List.mem_cons.mp hC with rfl | hC2
          · decide
          · rcases List.mem_cons.mp hC2 with rfl | hP
            · decide
            · exact pad4_ne_E d.year c hP
  have hcont : containsSub editedChars (renderChars d) = false :=
    containsSub_edited_false _ hnoE
  have hhead : ∀ c, (renderChars d).head? = some c → isWsC c = false := by
    intro c hc
    unfold renderChars at hc
    rw [hmn] at hc
    simp at hc
    rw [← hc]
    exact hc0
  have hlastrev : (renderChars d).reverse.head? = some (digitChar (d.year % 10)) := by
    unfold renderChars pad4
    simp [List.reverse_append]
  have hlast : ∀ c, (renderChars d).reverse.head? = some c → isWsC c = false := by
    intro c hc
    rw [hlastrev] at hc
    simp at hc
    rw [← hc]
    exact digitChar_not_ws _ (Nat.mod_lt _ (by omega))
  unfold renderDate parse_review_date
  have hdata : (String.mk (renderChars d)).data = renderChars d := rfl
  simp only [hdata, hcont, Bool.false_eq_true, ite_false, if_false]
  rw [pyStrip_no_ws _ hhead hlast]
  unfold parseDateChars renderChars
  rw [parseMonth_render d.month hm1 hm2]
  exact parseTail_render d.month d.year d.day hd1 hday31 hy1 hy2 hd2

theorem c6_prefix_aux (s : String) (hs : containsSub editedChars s.data = false) :
    parse_review_date ("Edited " ++ s) = parse_review_date s := by
  have hdata : ("Edited " ++ s).data = editedChars ++ ' ' :: s.data := by
    rw [String.data_append]
    rfl
  have hp : List.isPrefixOf editedChars (' ' :: s.data) = false := by
    simp [editedChars, List.isPrefixOf]
  have h0 : firstOccSplit editedChars s.data = none := by
    rcases hfo : firstOccSplit editedChars s.data with _ | p
    · rfl
    · rw [containsSub, hfo] at hs
      simp at hs
  have hnone : firstOccSplit editedChars (' ' :: s.data) = none := by
    unfold firstOccSplit
    rw [hp]
    simp only [Bool.false_eq_true, ite_false, if_false]
    rw [h0]
  have hfirst : firstOccSplit editedChars (editedChars ++ ' ' :: s.data) =
      some ([], ' ' :: s.data) := by
    have hpt : List.isPrefixOf editedChars (editedChars ++ ' ' :: s.data) = true :=
      isPrefixOf_append_self _ _
    rw [show editedChars ++ ' ' :: s.data =
      'E' :: (['d', 'i', 't', 'e', 'd'] ++ ' ' :: s.data) from rfl]
    unfold firstOccSplit
    rw [show List.isPrefixOf editedChars
      ('E' :: (['d', 'i', 't', 'e', 'd'] ++ ' ' :: s.data)) = true from hpt]
    simp [editedChars]
  have hTrue : containsSub editedChars (editedChars ++ ' ' :: s.data) = true := by
    rw [containsSub, hfirst]
    rfl
  have hseg : splitSeg1 editedChars (editedChars ++ ' ' :: s.data) = ' ' :: s.data := by
    unfold splitSeg1
    rw [hfirst]
    simp only []
    rw [hnone]
  unfold parse_review_date
  simp only [hdata, hTrue, if_true, hseg, hs, Bool.false_eq_true, ite_false, if_false]
  rw [pyStrip_cons_ws ' ' s.data (by decide)]

/-- C6 counterexample: the Edited-prefix rule fails on strings that
already contain the marker: "Edited June 1, 2024" parses to 2024-06-01,
but prefixing it with "Edited " makes the parse fail (only the text
between the first two occurrences of the marker is kept), so prefixing
does not always preserve the parse result. -/
theorem c6_counterexample :
    parse_review_date "Edited June 1, 2024" = some ⟨2024, 6, 1⟩ ∧
    parse_review_date ("Edited " ++ "Edited June 1, 2024") = none ∧
    some (⟨2024, 6, 1⟩ : PDate) ≠ none := by
  refine ⟨by decide, by decide, by decide⟩

/-- C6 amended: for every valid calendar date (month 1-12, day within the
month, year 1-9999) rendered as `"<Month name> <day>, <4-digit year>"`,
`parse_review_date` succeeds and returns exactly that date; and for every
string that does not already contain the marker "Edited", parsing
`"Edited " + s` yields the same result as parsing `s`. -/
theorem c6_amended_normalizer_roundtrip (d : PDate) (s : String)
    (hm1 : 1 ≤ d.month) (hm2 : d.month ≤ 12)
    (hd1 : 1 ≤ d.day) (hd2 : d.day ≤ daysInMonth d.month d.year)
    (hy1 : 1 ≤ d.year) (hy2 : d.year ≤ 9999)
    (hs : containsSub editedChars s.data = false) :
    parse_review_date (renderDate d) = some d ∧
    parse_review_date ("Edited " ++ s) = parse_review_date s :=
  ⟨c6_roundtrip_aux d hm1 hm2 hd1 hd2 hy1 hy2, c6_prefix_aux s hs⟩

/-- C6 witness: the round trip and the Edited prefix rule at
June 1, 2024. -/
theorem c6_amended_normalizer_roundtrip_witness :
    parse_review_date (renderDate ⟨2024, 6, 1⟩) = some ⟨2024, 6, 1⟩ ∧
    parse_review_date ("Edited " ++ "June 1, 2024") = parse_review_date "June 1, 2024" :=
  c6_amended_normalizer_roundtrip ⟨2024, 6, 1⟩ "June 1, 2024"
    (by decide) (by decide) (by decide) (by decide) (by decide) (by decide) (by decide)



